import Mathlib

/-!
Verification of the ESPCore thread-safety layer (`threadSafeArduino.h`),
the time provider (`TimeProviderBase.h/.cpp`) and the logging backends
(`LoggingBase.h/.cpp`), as a shallow embedding in Lean.

Conventions of the embedding
  * FreeRTOS semaphore handles are `Nat`; the null handle is `0`.
    `xSemaphoreCreateMutex` hands out fresh handles from a counter that
    starts at `1`, so a successfully created mutex is never the null
    handle (the source asserts `configASSERT(m != nullptr)` right after
    creation, so execution never proceeds past a null handle).
  * The static lock registry of namespace `threadSafe::detail` is made
    explicit as a `Registry` record that every accessor threads through.
  * The dynamic behaviour of a wrapped call (which semaphore operations
    and which raw hardware calls it performs, in which order) is embedded
    as the list of events the call emits.
  * Concurrency is modelled as a transition system over per-task phases
    and per-lock holders; the `holding` phase is the span in which the
    task executes the raw hardware call while owning the resolved lock.
-/

namespace threadSafe

/-- `#define THREADSAFE_MAX_GPIO_PINS 48` (default configuration). -/
def THREADSAFE_MAX_GPIO_PINS : Nat := 48

namespace detail

/-- The static state of `threadSafe::detail`: the allocation counter for
fresh semaphore handles and the five lazily created static lock slots of
the source file (`tableLock`, `touchLock`, `analogLock`, the out-of-range
`fallback` lock local to `getGpioLock`, and the per-pin array
`gpioLocks`). A slot holding `none` is a lock that was not created yet;
in the source these are the `nullptr` initial values of the statics. -/
structure Registry where
  nextHandle : Nat
  tableLock : Option Nat
  touchLock : Option Nat
  analogLock : Option Nat
  fallbackLock : Option Nat
  gpioLocks : Nat → Option Nat

/-- The state of the registry at program start: nothing created yet,
handle counter at the first non-null handle. -/
def initRegistry : Registry :=
  { nextHandle := 1
    tableLock := none
    touchLock := none
    analogLock := none
    fallbackLock := none
    gpioLocks := fun _ => none }

/-- `createMutex()`: `xSemaphoreCreateMutex()` followed by
`configASSERT(m != nullptr)`.  Returns a fresh handle; the assert means
the function never returns a null handle, which the model renders by
handing out the current counter value (positive on every reachable
state). -/
def createMutex (s : Registry) : Registry × Nat :=
  ({ s with nextHandle := s.nextHandle + 1 }, s.nextHandle)

/-- `tableLock()`: lazily creates and returns the global table lock. -/
def tableLockGet (s : Registry) : Registry × Nat :=
  match s.tableLock with
  | some h => (s, h)
  | none =>
      let p := createMutex s
      ({ p.1 with tableLock := some p.2 }, p.2)

/-- `touchLock()`: lazily creates and returns the touch peripheral lock. -/
def touchLockGet (s : Registry) : Registry × Nat :=
  match s.touchLock with
  | some h => (s, h)
  | none =>
      let p := createMutex s
      ({ p.1 with touchLock := some p.2 }, p.2)

/-- `analogLock()`: lazily creates and returns the ADC lock. -/
def analogLockGet (s : Registry) : Registry × Nat :=
  match s.analogLock with
  | some h => (s, h)
  | none =>
      let p := createMutex s
      ({ p.1 with analogLock := some p.2 }, p.2)

/-- `getGpioLock(pin)` under the default per-pin policy.  An out-of-range
pin falls back to the single static `fallback` lock; an in-range pin gets
its slot of `gpioLocks`, created lazily under the table lock with a
double check.  Taking and giving the table lock does not change the
registry beyond the lazy creation of the table lock itself, which
`tableLockGet` performs. -/
def getGpioLock (s : Registry) (pin : Nat) : Registry × Nat :=
  if THREADSAFE_MAX_GPIO_PINS ≤ pin then
    match s.fallbackLock with
    | some h => (s, h)
    | none =>
        let p := createMutex s
        ({ p.1 with fallbackLock := some p.2 }, p.2)
  else
    match s.gpioLocks pin with
    | some h => (s, h)
    | none =>
        let s1 := (tableLockGet s).1
        match s1.gpioLocks pin with
        | some h => (s1, h)
        | none =>
            let p := createMutex s1
            ({ p.1 with
                gpioLocks := fun q => if q = pin then some p.2 else p.1.gpioLocks q },
             p.2)

/-- Well-formedness of a registry state: the handle counter is positive
and no stored lock is the null handle.  Holds of `initRegistry` and is
preserved by every accessor. -/
def WF (s : Registry) : Prop :=
  1 ≤ s.nextHandle ∧
  (∀ h, s.tableLock = some h → h ≠ 0) ∧
  (∀ h, s.touchLock = some h → h ≠ 0) ∧
  (∀ h, s.analogLock = some h → h ≠ 0) ∧
  (∀ h, s.fallbackLock = some h → h ≠ 0) ∧
  (∀ p h, s.gpioLocks p = some h → h ≠ 0)

/-- The resource class a GPIO pin resolves to: its own per-pin lock when
in range, the shared fallback lock otherwise.  This is the identity
(which static lock object) of the semaphore `getGpioLock` returns,
abstracting away the handle values of the stateful registry. -/
inductive LockId where
  | gpioPin (pin : Nat)
  | gpioFallback
  | table
  | touch
  | analog
deriving DecidableEq

/-- Which static lock `getGpioLock(pin)` resolves: the test in the source
is `pin >= THREADSAFE_MAX_GPIO_PINS`. -/
def getGpioLockId (pin : Nat) : LockId :=
  if THREADSAFE_MAX_GPIO_PINS ≤ pin then LockId.gpioFallback else LockId.gpioPin pin

/-- Wait bound passed to `xSemaphoreTake`: a finite tick count or
`portMAX_DELAY` (block indefinitely). -/
inductive Timeout where
  | ticks (n : Nat)
  | indefinite
deriving DecidableEq

/-- One observable action of a wrapped call: a semaphore take attempt
with its wait bound, a semaphore give, or one raw hardware call. -/
inductive Ev where
  | takeAttempt (l : LockId) (t : Timeout)
  | give (l : LockId)
  | hwPinMode (pin mode : Nat)
  | hwDigitalWrite (pin val : Nat)
  | hwDigitalRead (pin : Nat)
  | hwAnalogRead (pin : Nat)
  | hwTouchRead (touchPin : Nat)
deriving DecidableEq

/-- Events of the `LockGuard` constructor:
`if (!inIsr()) xSemaphoreTake(m, portMAX_DELAY);`. -/
def lockGuardAcquire (isr : Bool) (l : LockId) : List Ev :=
  if isr then [] else [Ev.takeAttempt l Timeout.indefinite]

/-- Events of the `LockGuard` destructor: `if (!inIsr()) xSemaphoreGive(m);`. -/
def lockGuardRelease (isr : Bool) (l : LockId) : List Ev :=
  if isr then [] else [Ev.give l]

end detail

/-- Event trace of `threadSafe::pinMode(pin, mode)`: guard the resolved
GPIO lock around the raw `::pinMode` call.  `isr` is the value of
`xPortInIsrContext() != 0` during the call. -/
def pinMode (isr : Bool) (pin mode : Nat) : List detail.Ev :=
  let l := detail.getGpioLockId pin
  detail.lockGuardAcquire isr l ++ [detail.Ev.hwPinMode pin mode] ++
    detail.lockGuardRelease isr l

/-- Event trace of `threadSafe::digitalWrite(pin, val)`. -/
def digitalWrite (isr : Bool) (pin val : Nat) : List detail.Ev :=
  let l := detail.getGpioLockId pin
  detail.lockGuardAcquire isr l ++ [detail.Ev.hwDigitalWrite pin val] ++
    detail.lockGuardRelease isr l

/-- `threadSafe::digitalRead(pin)`: the raw read's result, modelled by the
environment function `hw`, is returned unchanged; the trace guards the raw
call. -/
def digitalRead (hw : Nat → Int) (isr : Bool) (pin : Nat) : Int × List detail.Ev :=
  let l := detail.getGpioLockId pin
  (hw pin,
   detail.lockGuardAcquire isr l ++ [detail.Ev.hwDigitalRead pin] ++
     detail.lockGuardRelease isr l)

/-- `threadSafe::analogRead(pin)`: guards the raw `::analogRead` with the
single ADC lock `detail::analogLock()` and returns its result unchanged. -/
def analogRead (hw : Nat → Int) (isr : Bool) (pin : Nat) : Int × List detail.Ev :=
  let l := detail.LockId.analog
  (hw pin,
   detail.lockGuardAcquire isr l ++ [detail.Ev.hwAnalogRead pin] ++
     detail.lockGuardRelease isr l)

/-- `threadSafe::touchRead(touchPin)`: guards the raw `::touchRead` with
the single touch lock. -/
def touchRead (hw : Nat → Nat) (isr : Bool) (touchPin : Nat) : Nat × List detail.Ev :=
  let l := detail.LockId.touch
  (hw touchPin,
   detail.lockGuardAcquire isr l ++ [detail.Ev.hwTouchRead touchPin] ++
     detail.lockGuardRelease isr l)

/-- `threadSafe::digitalWriteTry(pin, val, ticks_to_wait)`.  `isr` is the
result of `detail::inIsr()`; `takeOk` is whether `xSemaphoreTake` on the
resolved lock returns `pdTRUE` within `ticks` ticks (decided by the
scheduler environment).  Returns the boolean result together with the
events the call performed. -/
def digitalWriteTry (isr takeOk : Bool) (pin val ticks : Nat) :
    Bool × List detail.Ev :=
  if isr then (false, [])
  else
    let m := detail.getGpioLockId pin
    if takeOk then
      (true, [detail.Ev.takeAttempt m (detail.Timeout.ticks ticks),
              detail.Ev.hwDigitalWrite pin val, detail.Ev.give m])
    else
      (false, [detail.Ev.takeAttempt m (detail.Timeout.ticks ticks)])

/-- Number of raw hardware calls in a trace. -/
def countHwCalls (tr : List detail.Ev) : Nat :=
  tr.countP fun e =>
    match e with
    | detail.Ev.hwPinMode _ _ => true
    | detail.Ev.hwDigitalWrite _ _ => true
    | detail.Ev.hwDigitalRead _ => true
    | detail.Ev.hwAnalogRead _ => true
    | detail.Ev.hwTouchRead _ => true
    | _ => false

/-- Number of semaphore take attempts in a trace. -/
def countTakeAttempts (tr : List detail.Ev) : Nat :=
  tr.countP fun e =>
    match e with
    | detail.Ev.takeAttempt _ _ => true
    | _ => false

/-- The locks a trace touches (take or give), in order. -/
def locksIn (tr : List detail.Ev) : List detail.LockId :=
  tr.filterMap fun e =>
    match e with
    | detail.Ev.takeAttempt l _ => some l
    | detail.Ev.give l => some l
    | _ => none

/-- Phase of one task running one wrapped operation from task context:
`idle` before the `LockGuard` constructor returns, `holding` while it
owns the resolved lock and executes the raw hardware call, `finished`
after the `LockGuard` destructor gave the lock back. -/
inductive Phase where
  | idle
  | holding
  | finished
deriving DecidableEq

/-- Global state of the concurrent system: each task's phase and, for
each static lock, the task currently owning it (`none` when free). -/
structure SysState (τ : Type) where
  phase : τ → Phase
  holder : detail.LockId → Option τ

/-- All tasks before their wrapped calls, all locks free. -/
def initSys (τ : Type) : SysState τ :=
  { phase := fun _ => Phase.idle, holder := fun _ => none }

/-- Interleaving semantics of the wrapped calls from task context.
`res t` is the lock task `t`'s call resolved via the registry.
`acquire` is the `LockGuard` constructor's `xSemaphoreTake(m,
portMAX_DELAY)` returning: it can only fire when the FreeRTOS mutex is
free, and makes the caller the owner.  `release` is the destructor's
`xSemaphoreGive(m)`.  The raw hardware call runs strictly inside the
`holding` phase. -/
inductive SysStep {τ : Type} [DecidableEq τ] (res : τ → detail.LockId) :
    SysState τ → SysState τ → Prop where
  | acquire (s : SysState τ) (t : τ) :
      s.phase t = Phase.idle →
      s.holder (res t) = none →
      SysStep res s
        { phase := fun u => if u = t then Phase.holding else s.phase u
          holder := fun l => if l = res t then some t else s.holder l }
  | release (s : SysState τ) (t : τ) :
      s.phase t = Phase.holding →
      SysStep res s
        { phase := fun u => if u = t then Phase.finished else s.phase u
          holder := fun l => if l = res t then none else s.holder l }

/-- States reachable from the initial state by interleaved steps. -/
inductive SysReach {τ : Type} [DecidableEq τ] (res : τ → detail.LockId) :
    SysState τ → Prop where
  | init : SysReach res (initSys τ)
  | step {s s' : SysState τ} :
      SysReach res s → SysStep res s s' → SysReach res s'

end threadSafe

/-- `NullTimeProvider::getSecondsOfDay()`:
`int secs = millis() / 1000; return secs % 86400;`.
`millis()` is a 32-bit unsigned tick count, modelled by the register
value `m % 2^32`; the quotient by 1000 always fits in a 32-bit signed
`int` (the conversion is the `if`), and `%` is C++ truncating remainder
(`Int.tmod`). -/
def NullTimeProvider_getSecondsOfDay (m : Nat) : Int :=
  let msReg : Nat := m % 2 ^ 32
  let secsU : Nat := msReg / 1000
  let secs : Int := if secsU < 2 ^ 31 then (secsU : Int) else (secsU : Int) - 2 ^ 32
  Int.tmod secs 86400

/-- Addresses a `TimeProviderBase*` can hold in this program: null, the
global `gNullTimeProvider` fallback object, or some other provider
object. -/
inductive TPPtr where
  | null
  | gNullTimeProvider
  | provider (n : Nat)
deriving DecidableEq

/-- `setTimeProvider(timeProvider)` as a function from the old value of
the global `gTimeProvider` and the argument to the new value of
`gTimeProvider`:
`if (timeProvider == 0) gTimeProvider = &gNullTimeProvider;`
then, unconditionally, `gTimeProvider = timeProvider;`. -/
def setTimeProvider (gOld p : TPPtr) : TPPtr :=
  let g1 := if p = TPPtr.null then TPPtr.gNullTimeProvider else gOld
  let g2 := p
  let _ := g1
  g2

/-- Addresses a `LoggingBase*` can hold in this program: null, the static
`_serialLogger`, the static `_nullLogger`, or some other logger object. -/
inductive LogPtr where
  | null
  | serialLogger
  | nullLogger
  | logger (n : Nat)
deriving DecidableEq

/-- `LoggingBase* gLogger = &_serialLogger;` — the initial value of the
global logger reference. -/
def gLoggerInit : LogPtr := LogPtr.serialLogger

/-- `setLogger(logger)`: `gLogger = logger ? logger : &_nullLogger;` —
the new value of `gLogger` as a function of the argument. -/
def setLogger (p : LogPtr) : LogPtr :=
  if p = LogPtr.null then LogPtr.nullLogger else p

/-- A concrete resource assignment for exercising the concurrent system:
every task's wrapped call resolved the ADC lock. -/
def resExample : Nat → threadSafe.detail.LockId :=
  fun _ => threadSafe.detail.LockId.analog

/-- The system state after task `0` acquired the ADC lock and entered its
hardware call. -/
def sysExample : threadSafe.SysState Nat :=
  { phase := fun u => if u = 0 then threadSafe.Phase.holding
                      else (threadSafe.initSys Nat).phase u
    holder := fun l => if l = resExample 0 then some 0
                       else (threadSafe.initSys Nat).holder l }

/-- A concrete registry state in which pin 5 already has its lock
(handle 2) and the table lock exists (handle 1). -/
def regExample : threadSafe.detail.Registry :=
  { nextHandle := 3
    tableLock := some 1
    touchLock := none
    analogLock := none
    fallbackLock := none
    gpioLocks := fun q => if q = 5 then some 2 else none }

/-! ## Helper lemmas -/

namespace threadSafe

namespace detail

theorem initRegistry_WF : WF initRegistry := by
  refine ⟨le_refl 1, ?_, ?_, ?_, ?_, ?_⟩ <;> intros <;> simp_all [initRegistry]

theorem tableLockGet_gpioLocks (s : Registry) (q : Nat) :
    (tableLockGet s).1.gpioLocks q = s.gpioLocks q := by
  unfold tableLockGet
  cases s.tableLock <;> simp [createMutex]

theorem tableLockGet_nextHandle (s : Registry) :
    s.nextHandle ≤ (tableLockGet s).1.nextHandle := by
  unfold tableLockGet
  cases s.tableLock <;> simp [createMutex]

end detail

/-- Inductive invariant of the interleaving semantics: a task in its
hardware-call section owns its resolved lock. -/
theorem holding_owns {τ : Type} [DecidableEq τ] (res : τ → detail.LockId)
    {s : SysState τ} (hr : SysReach res s) :
    ∀ t : τ, s.phase t = Phase.holding → s.holder (res t) = some t := by
  induction hr with
  | init => intro t ht; simp [initSys] at ht
  | step hreach hstep ih =>
      cases hstep with
      | acquire t hidle hfree =>
          intro u hu
          by_cases hut : u = t
          · subst hut; simp
          · simp [hut] at hu
            have hown := ih u hu
            by_cases hres : res u = res t
            · rw [hres, hfree] at hown; cases hown
            · simp [hres, hown]
      | release t hhold =>
          intro u hu
          by_cases hut : u = t
          · subst hut; simp at hu
          · simp [hut] at hu
            have hown := ih u hu
            by_cases hres : res u = res t
            · have hownt := ih t hhold
              rw [hres, hownt] at hown
              exact absurd (Option.some.inj hown).symm hut
            · simp [hres, hown]

end threadSafe



/-! ## Claim theorems -/

open threadSafe threadSafe.detail

/-- C1: `tryWriteDigital` (`digitalWriteTry`) returns failure with zero
hardware write calls when the lock cannot be acquired within the timeout;
returns success with exactly one hardware write when the lock is acquired
within the timeout; and from interrupt context it fails immediately,
performing no acquisition attempt and no hardware call at all. -/
theorem digitalWriteTry_timeout_semantics (pin val ticks : Nat) (takeOk : Bool) :
    (digitalWriteTry true takeOk pin val ticks = (false, [])) ∧
    (countTakeAttempts (digitalWriteTry true takeOk pin val ticks).2 = 0) ∧
    ((digitalWriteTry false false pin val ticks).1 = false) ∧
    (countHwCalls (digitalWriteTry false false pin val ticks).2 = 0) ∧
    ((digitalWriteTry false true pin val ticks).1 = true) ∧
    (countHwCalls (digitalWriteTry false true pin val ticks).2 = 1) := by
  refine ⟨rfl, rfl, rfl, ?_, rfl, ?_⟩ <;>
    simp [digitalWriteTry, countHwCalls, List.countP_cons]

/-- C6: from interrupt context the `LockGuard` skips both acquisition and
release, so every wrapped operation's trace is the bare hardware call; from
task context the guard takes the resolved lock with an indefinite wait
(`portMAX_DELAY`) before the hardware call and gives it back after. -/
theorem lockGuard_isr_skips_task_blocks
    (pin mode val tpin apin : Nat) (hwd hwa : Nat → Int) (hwt : Nat → Nat) :
    (pinMode true pin mode = [Ev.hwPinMode pin mode]) ∧
    (digitalWrite true pin val = [Ev.hwDigitalWrite pin val]) ∧
    ((digitalRead hwd true pin).2 = [Ev.hwDigitalRead pin]) ∧
    ((analogRead hwa true apin).2 = [Ev.hwAnalogRead apin]) ∧
    ((touchRead hwt true tpin).2 = [Ev.hwTouchRead tpin]) ∧
    (pinMode false pin mode =
      [Ev.takeAttempt (getGpioLockId pin) Timeout.indefinite,
       Ev.hwPinMode pin mode, Ev.give (getGpioLockId pin)]) ∧
    (digitalWrite false pin val =
      [Ev.takeAttempt (getGpioLockId pin) Timeout.indefinite,
       Ev.hwDigitalWrite pin val, Ev.give (getGpioLockId pin)]) ∧
    ((digitalRead hwd false pin).2 =
      [Ev.takeAttempt (getGpioLockId pin) Timeout.indefinite,
       Ev.hwDigitalRead pin, Ev.give (getGpioLockId pin)]) ∧
    ((analogRead hwa false apin).2 =
      [Ev.takeAttempt LockId.analog Timeout.indefinite,
       Ev.hwAnalogRead apin, Ev.give LockId.analog]) ∧
    ((touchRead hwt false tpin).2 =
      [Ev.takeAttempt LockId.touch Timeout.indefinite,
       Ev.hwTouchRead tpin, Ev.give LockId.touch]) :=
  ⟨rfl, rfl, rfl, rfl, rfl, rfl, rfl, rfl, rfl, rfl⟩

/-- C7: `readAnalog` (`analogRead`) resolves the single ADC lock whatever
analog pin is passed — the locks appearing in its trace are the same for
any two pins —, guards the raw analog read with it, and returns the raw
hardware result unchanged. -/
theorem analogRead_shared_adc_lock
    (hw : Nat → Int) (isr : Bool) (pin pin2 : Nat) :
    ((analogRead hw isr pin).1 = hw pin) ∧
    ((analogRead hw false pin).2 =
      [Ev.takeAttempt LockId.analog Timeout.indefinite,
       Ev.hwAnalogRead pin, Ev.give LockId.analog]) ∧
    (locksIn (analogRead hw false pin).2 = locksIn (analogRead hw false pin2).2) :=
  ⟨rfl, rfl, rfl⟩

/-- C8: the millis-based `NullTimeProvider::getSecondsOfDay` returns the
elapsed-seconds count reduced modulo 86400, so for every value of the
millisecond clock register the result wraps at 86400 and lies in
`[0, 86399]`. -/
theorem getSecondsOfDay_wraps_86400 (m : Nat) :
    NullTimeProvider_getSecondsOfDay m = ((m % 2 ^ 32 / 1000 % 86400 : Nat) : Int) ∧
    0 ≤ NullTimeProvider_getSecondsOfDay m ∧
    NullTimeProvider_getSecondsOfDay m < 86400 := by
  have h2 : m % 2 ^ 32 / 1000 < 2 ^ 31 := by
    apply Nat.div_lt_of_lt_mul
    have h1 : m % 2 ^ 32 < 2 ^ 32 := Nat.mod_lt _ (by norm_num)
    have h3 : (2 : Nat) ^ 32 ≤ 2 ^ 31 * 1000 := by norm_num
    omega
  have he : NullTimeProvider_getSecondsOfDay m =
      ((m % 2 ^ 32 / 1000 % 86400 : Nat) : Int) := by
    unfold NullTimeProvider_getSecondsOfDay
    simp only [if_pos h2]
    exact (Int.ofNat_tmod (m % 2 ^ 32 / 1000) 86400).symm
  refine ⟨he, ?_, ?_⟩ <;> rw [he] <;> omega

/-- C9: `setTimeProvider(p)` leaves the global `gTimeProvider` equal to
`p` itself for every argument, null included: the trailing unconditional
assignment overwrites the effect of the null check, so a null argument
leaves the global null instead of redirecting it to `gNullTimeProvider`. -/
theorem setTimeProvider_assigns_argument (gOld p : TPPtr) :
    setTimeProvider gOld p = p ∧
    setTimeProvider gOld TPPtr.null = TPPtr.null ∧
    setTimeProvider gOld TPPtr.null ≠ TPPtr.gNullTimeProvider :=
  ⟨rfl, rfl, by simp [setTimeProvider]⟩

/-- C10: the global logger starts at the serial (console-writer) backend
and is never null: `setLogger(p)` stores `p` when `p` is non-null and the
discard backend `_nullLogger` when `p` is null. -/
theorem gLogger_never_null (p : LogPtr) :
    gLoggerInit = LogPtr.serialLogger ∧
    setLogger LogPtr.null = LogPtr.nullLogger ∧
    setLogger p ≠ LogPtr.null ∧
    (p ≠ LogPtr.null → setLogger p = p) := by
  refine ⟨rfl, rfl, ?_, ?_⟩
  · by_cases hp : p = LogPtr.null
    · subst hp; simp [setLogger]
    · simp [setLogger, hp]
  · intro hp; simp [setLogger, hp]

/-- Witness for C10 at the concrete arguments `logger 7` and `null`. -/
theorem gLogger_never_null_witness :
    setLogger (LogPtr.logger 7) = LogPtr.logger 7 ∧
    setLogger LogPtr.null = LogPtr.nullLogger :=
  ⟨(gLogger_never_null (LogPtr.logger 7)).2.2.2 (by decide),
   (gLogger_never_null LogPtr.null).2.1⟩

/-- C2: lock resolution for a pin at or above `THREADSAFE_MAX_GPIO_PINS`
does not fail: it returns the single shared fallback lock — the state
records the returned handle as the fallback, and a second resolution for
any other out-of-range pin returns that very same handle, so out-of-range
operations serialize against each other through one lock. -/
theorem getGpioLock_out_of_range_shared_fallback
    (s : Registry) (p1 p2 : Nat)
    (h1 : THREADSAFE_MAX_GPIO_PINS ≤ p1) (h2 : THREADSAFE_MAX_GPIO_PINS ≤ p2) :
    (getGpioLock s p1).1.fallbackLock = some (getGpioLock s p1).2 ∧
    (getGpioLock ((getGpioLock s p1).1) p2).2 = (getGpioLock s p1).2 := by
  cases hf : s.fallbackLock with
  | some h =>
      constructor
      · simp [getGpioLock, h1, hf]
      · simp [getGpioLock, h1, h2, hf]
  | none =>
      constructor
      · simp [getGpioLock, h1, hf, createMutex]
      · simp [getGpioLock, h1, h2, hf, createMutex]

/-- Witness for C2 at the concrete out-of-range pins 48 and 300 from the
initial registry state. -/
theorem getGpioLock_out_of_range_witness :
    (getGpioLock initRegistry 48).1.fallbackLock =
      some (getGpioLock initRegistry 48).2 ∧
    (getGpioLock ((getGpioLock initRegistry 48).1) 300).2 =
      (getGpioLock initRegistry 48).2 :=
  getGpioLock_out_of_range_shared_fallback initRegistry 48 300
    (by decide) (by decide)

/-- C3: on any well-formed registry state, every lock-resolution accessor
(the GPIO resolver for any pin, in or out of range, and the ADC, touch and
table accessors) returns a non-null handle. -/
theorem resolve_never_null (s : Registry) (pin : Nat) (hWF : WF s) :
    (getGpioLock s pin).2 ≠ 0 ∧ (analogLockGet s).2 ≠ 0 ∧
    (touchLockGet s).2 ≠ 0 ∧ (tableLockGet s).2 ≠ 0 := by
  obtain ⟨hn, htab, htouch, hana, hfall, hgpio⟩ := hWF
  refine ⟨?_, ?_, ?_, ?_⟩
  · by_cases hp : THREADSAFE_MAX_GPIO_PINS ≤ pin
    · cases hf : s.fallbackLock with
      | some h => simpa [getGpioLock, hp, hf] using hfall h hf
      | none =>
          simp [getGpioLock, hp, hf, createMutex]
          omega
    · cases hg : s.gpioLocks pin with
      | some h => simpa [getGpioLock, hp, hg] using hgpio pin h hg
      | none =>
          have hg1 : (tableLockGet s).1.gpioLocks pin = none := by
            rw [tableLockGet_gpioLocks]; exact hg
          have hn1 : 1 ≤ (tableLockGet s).1.nextHandle :=
            le_trans hn (tableLockGet_nextHandle s)
          simp [getGpioLock, hp, hg, hg1, createMutex]
          omega
  · cases ha : s.analogLock with
    | some h => simpa [analogLockGet, ha] using hana h ha
    | none =>
        simp [analogLockGet, ha, createMutex]
        omega
  · cases ht : s.touchLock with
    | some h => simpa [touchLockGet, ht] using htouch h ht
    | none =>
        simp [touchLockGet, ht, createMutex]
        omega
  · cases ht : s.tableLock with
    | some h => simpa [tableLockGet, ht] using htab h ht
    | none =>
        simp [tableLockGet, ht, createMutex]
        omega

/-- Witness for C3: the initial registry state is well-formed and GPIO
resolution for pin 5 yields a non-null handle there. -/
theorem resolve_never_null_witness :
    (getGpioLock initRegistry 5).2 ≠ 0 ∧ (analogLockGet initRegistry).2 ≠ 0 := by
  have H := resolve_never_null initRegistry 5 initRegistry_WF
  exact ⟨H.1, H.2.1⟩

/-- C4: under the per-pin policy the lock table starts with every entry
absent; once a pin's slot holds a lock, resolution for that pin returns
exactly that lock and leaves the state untouched; and any resolution
changes the table at most at the resolved pin, only from absent to the
newly returned lock — entries are never destroyed, reset or replaced.
The touch, ADC and table-lock accessors never touch the table at all. -/
theorem gpioLocks_append_only (s : Registry) (pin q : Nat) (h : Nat)
    (hpin : pin < THREADSAFE_MAX_GPIO_PINS) :
    (initRegistry.gpioLocks q = none) ∧
    (s.gpioLocks pin = some h → getGpioLock s pin = (s, h)) ∧
    (∀ r : Nat, (getGpioLock s q).1.gpioLocks r = s.gpioLocks r ∨
        (r = q ∧ s.gpioLocks r = none ∧
          (getGpioLock s q).1.gpioLocks r = some (getGpioLock s q).2)) ∧
    ((touchLockGet s).1.gpioLocks q = s.gpioLocks q) ∧
    ((analogLockGet s).1.gpioLocks q = s.gpioLocks q) ∧
    ((tableLockGet s).1.gpioLocks q = s.gpioLocks q) := by
  have hnot : ¬ THREADSAFE_MAX_GPIO_PINS ≤ pin := not_le.mpr hpin
  refine ⟨rfl, ?_, ?_, ?_, ?_, tableLockGet_gpioLocks s q⟩
  · intro hs
    simp [getGpioLock, hnot, hs]
  · intro r
    by_cases hq : THREADSAFE_MAX_GPIO_PINS ≤ q
    · left
      cases hf : s.fallbackLock with
      | some hh => simp [getGpioLock, hq, hf]
      | none => simp [getGpioLock, hq, hf, createMutex]
    · cases hg : s.gpioLocks q with
      | some hh => left; simp [getGpioLock, hq, hg]
      | none =>
          have hg1 : (tableLockGet s).1.gpioLocks q = none := by
            rw [tableLockGet_gpioLocks]; exact hg
          by_cases hr : r = q
          · right
            subst hr
            refine ⟨rfl, hg, ?_⟩
            simp [getGpioLock, hq, hg, hg1, createMutex]
          · left
            simp only [getGpioLock, hq, if_false, ite_false, hg, hg1,
              createMutex]
            simp [hr, tableLockGet_gpioLocks]
  · unfold touchLockGet
    cases s.touchLock <;> simp [createMutex]
  · unfold analogLockGet
    cases s.analogLock <;> simp [createMutex]

/-- Witness for C4: in a registry where pin 5 already holds handle 2,
resolution for pin 5 returns `(state, 2)` unchanged, and pin 9 starts
absent in the initial registry. -/
theorem gpioLocks_append_only_witness :
    getGpioLock regExample 5 = (regExample, 2) ∧
    (threadSafe.detail.initRegistry).gpioLocks 9 = none := by
  have H := gpioLocks_append_only regExample 5 9 2 (by decide)
  exact ⟨H.2.1 (by simp [regExample]), H.1⟩

/-- C5: in the interleaving semantics of wrapped operations run from task
context, two tasks whose calls resolved the same lock are never both
inside their hardware-call section in any reachable state: hardware calls
on the same resource class are strictly serialized by the resolved lock. -/
theorem hw_calls_same_resource_never_overlap {τ : Type} [DecidableEq τ]
    (res : τ → LockId) (s : SysState τ) (hr : SysReach res s) (t1 t2 : τ)
    (hold1 : s.phase t1 = Phase.holding) (hold2 : s.phase t2 = Phase.holding)
    (hres : res t1 = res t2) : t1 = t2 := by
  have o1 := threadSafe.holding_owns res hr t1 hold1
  have o2 := threadSafe.holding_owns res hr t2 hold2
  rw [hres] at o1
  exact Option.some.inj (o1.symm.trans o2)

/-- Witness for C5: the state reached by task 0 acquiring the ADC lock is
reachable, task 0 is in its hardware-call section there, and the theorem
applied to the pair (0, 0) on that state yields `0 = 0`. -/
theorem hw_calls_never_overlap_witness :
    sysExample.phase 0 = Phase.holding ∧ (0 : Nat) = 0 := by
  have hreach : SysReach resExample sysExample :=
    SysReach.step SysReach.init
      (SysStep.acquire (threadSafe.initSys Nat) 0 rfl rfl)
  exact ⟨rfl, hw_calls_same_resource_never_overlap resExample sysExample
    hreach 0 0 rfl rfl rfl⟩
